import Mathlib

/-!
Verification of the exam-time-extension CLI (`src/increase-time.js`).

The script is a linear terminal tool over three Redis hashes:
`student-login-new` (login → student JSON), `studentsss-new`
(student id → exam list JSON) and `student-exams-new`
(`"<studentId>-<examId>"` → attempt JSON).  We embed the store as
association lists, the attempt record as a structure keeping the two
fields the tool touches plus an opaque remainder, and the terminal
session as a function from the list of prompt answers to a trace of
store/console events together with an outcome.
-/

namespace IncreaseTime

/-- A student record as parsed from the `student-login-new` hash; the
tool only ever dereferences its `id` (an empty `id` models a falsy
`studentObject.id`). -/
structure Student where
  id : String
deriving DecidableEq, Repr

/-- An exam-attempt record as parsed from the `student-exams-new` hash:
the two fields the tool mutates (`isFinished`, `endDatetime`, the
latter as the parsed ISO timestamp in seconds) plus every remaining
field, carried opaquely as key/value pairs. -/
structure Attempt where
  isFinished : Bool
  endDatetime : Int
  rest : List (String × String)
deriving DecidableEq, Repr

/-- An exam descriptor inside the student's exam data; empty `id` or
`title` models a missing/falsy property. -/
structure ExamEntry where
  id : String
  title : String
deriving DecidableEq, Repr

/-- The exam collection the session works with after the
`studentExamData?.exams || studentExamData` fallback: either a JSON
array of (possibly null) exam descriptors or a plain JSON object whose
values are (possibly null) exam descriptors. -/
inductive ExamsColl where
  | arr (items : List (Option ExamEntry))
  | obj (fields : List (String × Option ExamEntry))
deriving DecidableEq, Repr

/-- The deserialized value stored in the `studentsss-new` hash: a bare
array, an object with a truthy `exams` property, or an object without
one. -/
inductive ExamData where
  | plainArr (items : List (Option ExamEntry))
  | objWithExams (c : ExamsColl)
  | objNoExams (fields : List (String × Option ExamEntry))
deriving DecidableEq, Repr

/-- The fallback `studentExamData?.exams || studentExamData`: an object's truthy
`exams` property wins, otherwise the value itself is the collection. -/
def collOf : ExamData → ExamsColl
  | .plainArr items => .arr items
  | .objWithExams c => c
  | .objNoExams fields => .obj fields

/-- The emptiness gauge `Object.keys(studentExams).length`: element count of an array,
field count of an object. -/
def collKeyCount : ExamsColl → Nat
  | .arr items => items.length
  | .obj fields => fields.length

/-- The values iterated by `for (const examKey in studentExams)`. -/
def entriesOf : ExamsColl → List (Option ExamEntry)
  | .arr items => items
  | .obj fields => fields.map (·.2)

/-- Events observable from outside the process: the three hash reads,
the single hash write, logged errors, the connection release and the
explicit `process.exit(0)`. -/
inductive Ev where
  | readLogin (k : String)
  | readExams (k : String)
  | readAttempt (k : String)
  | write (k : String) (v : Attempt)
  | logError
  | disconnect
  | exitZero
deriving DecidableEq, Repr

/-- Holds when the event is one of the three store reads. -/
def isReadEv : Ev → Bool
  | .readLogin _ => true
  | .readExams _ => true
  | .readAttempt _ => true
  | _ => false

/-- Holds when the event is a store write. -/
def isWriteEv : Ev → Bool
  | .write _ _ => true
  | _ => false

/-- Redis `hGet`, embedded as association-list lookup. -/
def hGet {α : Type} : List (String × α) → String → Option α
  | [], _ => none
  | (k', v) :: t, k => if k' = k then some v else hGet t k

/-- Redis `hSet`: overwrite the field if present, else add it. -/
def hSet {α : Type} : List (String × α) → String → α → List (String × α)
  | [], k, v => [(k, v)]
  | (k', v') :: t, k, v => if k' = k then (k, v) :: t else (k', v') :: hSet t k v

/-- The composite key `` `${studentId}-${examId}` ``. -/
def attemptKey (studentId examId : String) : String :=
  studentId ++ "-" ++ examId

/-- A raw client `hGet` that may throw (`fails` injects an I/O error). -/
def hGetThrow {α : Type} (h : List (String × α)) (k : String) (fails : Bool) :
    Except String (Option α) :=
  if fails then .error "store read failed" else .ok (hGet h k)

/-- A raw client `hSet` that may throw (`fails` injects an I/O error). -/
def hSetThrow {α : Type} (h : List (String × α)) (k : String) (v : α) (fails : Bool) :
    Except String (List (String × α)) :=
  if fails then .error "store write failed" else .ok (hSet h k v)

/-- The function `fetchStudentExamAttempt`: one `hGet` on `student-exams-new` under
the composite key; its `try/catch` turns a thrown error into a logged
message and a `null` result. -/
def fetchStudentExamAttempt (attempts : List (String × Attempt))
    (studentId examId : String) (readFails : Bool) : Option Attempt × List Ev :=
  match hGetThrow attempts (attemptKey studentId examId) readFails with
  | .error _ => (none, [.readAttempt (attemptKey studentId examId), .logError])
  | .ok v => (v, [.readAttempt (attemptKey studentId examId)])

/-- The function `addStudentExamAttempt`: one `hSet` of the serialized record on
`student-exams-new` under the composite key; its `try/catch` turns a
thrown error into a logged message, leaving the hash unchanged. -/
def addStudentExamAttempt (attempts : List (String × Attempt))
    (studentId examId : String) (v : Attempt) (writeFails : Bool) :
    List (String × Attempt) × List Ev :=
  match hSetThrow attempts (attemptKey studentId examId) v writeFails with
  | .error _ => (attempts, [.logError])
  | .ok h2 => (h2, [.write (attemptKey studentId examId) v])

/-- How a call to `increaseStudentExamTime` ends: early return on a
falsy student or id, early return when no attempt record exists, or
fall-through to the final success log line. -/
inductive ExtOutcome where
  | invalidStudent
  | notFound
  | success
deriving DecidableEq, Repr

/-- The function `increaseStudentExamTime(examId, studentObject, timeLimitInMinutes)`:
guard the student object, fetch the attempt, abort if absent, set
`isFinished = false`, add `timeLimitInMinutes * 60` seconds to the
parsed `endDatetime`, and write the whole record back.  Returns the
outcome, the resulting `student-exams-new` hash and the event trace. -/
def increaseStudentExamTime (attempts : List (String × Attempt)) (examId : String)
    (studentObject : Option Student) (timeLimitInMinutes : Int)
    (readFails writeFails : Bool) : ExtOutcome × List (String × Attempt) × List Ev :=
  match studentObject with
  | none => (.invalidStudent, attempts, [])
  | some stu =>
    if stu.id = "" then (.invalidStudent, attempts, [])
    else
      match fetchStudentExamAttempt attempts stu.id examId readFails with
      | (none, evs1) => (.notFound, attempts, evs1)
      | (some r, evs1) =>
        let updated : Attempt :=
          { r with isFinished := false,
                   endDatetime := r.endDatetime + timeLimitInMinutes * 60 }
        let p := addStudentExamAttempt attempts stu.id examId updated writeFails
        (.success, p.1, evs1 ++ p.2)

/-! ## The terminal session -/

/-- JavaScript whitespace as far as the tool's inputs are concerned. -/
def jsWhitespace (c : Char) : Bool :=
  c = ' ' || c = '\t' || c = '\n' || c = '\r'

/-- JavaScript `String.prototype.trim`: strip leading and trailing whitespace. -/
def jsTrim (s : String) : String :=
  ⟨((s.data.dropWhile jsWhitespace).reverse.dropWhile jsWhitespace).reverse⟩

/-- ASCII lowering of one character, as `toLowerCase` acts on the
inputs the tool compares. -/
def jsCharLower (c : Char) : Char :=
  if 'A' ≤ c ∧ c ≤ 'Z' then Char.ofNat (c.toNat + 32) else c

/-- JavaScript `String.prototype.toLowerCase` on ASCII input. -/
def jsToLower (s : String) : String :=
  ⟨s.data.map jsCharLower⟩

/-- The cancellation check of `askQuestion`:
`answer.trim().toLowerCase() === "exit"`. -/
def isExitTok (s : String) : Bool :=
  jsToLower (jsTrim s) = "exit"

/-- Value of a run of decimal digits. -/
def digitsVal (cs : List Char) : Nat :=
  cs.foldl (fun a c => a * 10 + (c.toNat - 48)) 0

/-- JavaScript `parseInt(s, 10)`: skip leading whitespace, read an
optional sign and the longest prefix of decimal digits, ignore the
rest; `none` models `NaN` (no digits at all). -/
def jsParseInt (s : String) : Option Int :=
  let cs := (jsTrim s).data
  let p : Int × List Char :=
    match cs with
    | '-' :: t => (-1, t)
    | '+' :: t => (1, t)
    | t => (1, t)
  let ds := p.2.takeWhile (fun c => c.isDigit)
  if ds.isEmpty then none else some (p.1 * (digitsVal ds : Int))

/-- How one prompt loop ends: a value, the cancellation token, the
scripted answers running out, or an uncaught exception. -/
inductive PhaseRes (α : Type) where
  | ok (a : α)
  | cancelled
  | blocked
  | errored
deriving DecidableEq, Repr

/-- One numbered choice printed by the exam listing. -/
structure Choice where
  index : Int
  examId : String
  title : String
deriving DecidableEq, Repr

/-- Build `examChoices`: walk the entries, keep those with truthy
`title` and `id`, numbering the kept ones from `i` upward. -/
def examChoicesAux : List (Option ExamEntry) → Int → List Choice
  | [], _ => []
  | none :: t, i => examChoicesAux t i
  | some e :: t, i =>
    if e.title ≠ "" ∧ e.id ≠ "" then
      { index := i, examId := e.id, title := e.title } :: examChoicesAux t (i + 1)
    else
      examChoicesAux t i

/-- The numbered exam choices printed for a collection. -/
def examChoices (c : ExamsColl) : List Choice :=
  examChoicesAux (entriesOf c) 1

/-- JavaScript `Array.prototype.find` with the callback
`({ id }) => id === eid`: destructuring a `null` element throws a
`TypeError`, modelled as `.error`. -/
def jsArrayFind : List (Option ExamEntry) → String → Except Unit (Option ExamEntry)
  | [], _ => .ok none
  | none :: _, _ => .error ()
  | some e :: t, eid => if e.id = eid then .ok (some e) else jsArrayFind t eid

/-- The lookup `studentExams.find(({ id }) => id === eid)`: array-only — calling
it on a plain object throws `TypeError: studentExams.find is not a
function`, modelled as `.error`. -/
def collFind (c : ExamsColl) (eid : String) : Except Unit (Option ExamEntry) :=
  match c with
  | .arr items => jsArrayFind items eid
  | .obj _ => .error ()

/-- The student-identifier prompt loop: re-prompt until the login hash
resolves the (trimmed) answer, recording one `readLogin` per try. -/
def emailLoop (logins : List (String × Student)) :
    List String → PhaseRes Student × List String × List Ev
  | [] => (.blocked, [], [])
  | inp :: rest =>
    if isExitTok inp then (.cancelled, rest, [])
    else
      match hGet logins (jsTrim inp) with
      | some stu => (.ok stu, rest, [.readLogin (jsTrim inp)])
      | none =>
        let r := emailLoop logins rest
        (r.1, r.2.1, .readLogin (jsTrim inp) :: r.2.2)

/-- The exam-selection prompt loop: `parseInt` the answer, look it up
among the listed choices (re-prompt when absent), then run the
array-only `find` over the collection — whose `TypeError` on an object
collection (or on a `null` array element) aborts the session.  A
successful lookup that returns no exam re-prompts. -/
def selLoop (c : ExamsColl) (choices : List Choice) :
    List String → PhaseRes ExamEntry × List String
  | [] => (.blocked, [])
  | inp :: rest =>
    if isExitTok inp then (.cancelled, rest)
    else
      match (jsParseInt (jsTrim inp)).bind
          (fun v => choices.find? (fun ch => ch.index = v)) with
      | none => selLoop c choices rest
      | some ch =>
        match collFind c ch.examId with
        | .error _ => (.errored, rest)
        | .ok none => selLoop c choices rest
        | .ok (some e) => (.ok e, rest)

/-- The minutes prompt loop: re-prompt while `parseInt` yields `NaN`
or a non-positive value. -/
def minutesLoop : List String → PhaseRes Int × List String
  | [] => (.blocked, [])
  | inp :: rest =>
    if isExitTok inp then (.cancelled, rest)
    else
      match jsParseInt (jsTrim inp) with
      | none => minutesLoop rest
      | some v => if v ≤ 0 then minutesLoop rest else (.ok v, rest)

/-- The three hashes the tool touches. -/
structure Store where
  logins : List (String × Student)
  examsH : List (String × ExamData)
  attempts : List (String × Attempt)
deriving DecidableEq, Repr

/-- How a whole session ends: normal fall-through to `finally`, the
cancellation token, no exams listed, an exception caught at top level,
or the scripted answers running out. -/
inductive Outcome where
  | done
  | cancelled
  | noExams
  | errored
  | blocked
deriving DecidableEq, Repr

/-- The session from the point the student is resolved: fetch the exam
data, bail out when it is missing or empty, list the choices, run the
selection and minutes loops and finally the time extension; `finally`
releases the connection, and the cancellation path exits via
`gracefulExit` (disconnect, then `process.exit(0)`). -/
def sessionAfterStudent (st : Store) (stu : Student) (inputs : List String) :
    List Ev × Outcome :=
  match hGet st.examsH stu.id with
  | none => ([.readExams stu.id, .disconnect], .noExams)
  | some d =>
    if collKeyCount (collOf d) = 0 then ([.readExams stu.id, .disconnect], .noExams)
    else
      match selLoop (collOf d) (examChoices (collOf d)) inputs with
      | (.cancelled, _) => ([.readExams stu.id] ++ [.disconnect, .exitZero], .cancelled)
      | (.blocked, _) => ([.readExams stu.id], .blocked)
      | (.errored, _) => ([.readExams stu.id, .disconnect], .errored)
      | (.ok e, rest) =>
        match minutesLoop rest with
        | (.cancelled, _) => ([.readExams stu.id] ++ [.disconnect, .exitZero], .cancelled)
        | (.blocked, _) => ([.readExams stu.id], .blocked)
        | (.errored, _) => ([.readExams stu.id, .disconnect], .errored)
        | (.ok n, _) =>
          ([Ev.readExams stu.id] ++
             (increaseStudentExamTime st.attempts e.id (some stu) n false false).2.2 ++
             [.disconnect], .done)

/-- The driver `runTerminalTool`: resolve the student, then run the rest of the
session. -/
def session (st : Store) (inputs : List String) : List Ev × Outcome :=
  match emailLoop st.logins inputs with
  | (.cancelled, _, evs) => (evs ++ [.disconnect, .exitZero], .cancelled)
  | (.blocked, _, evs) => (evs, .blocked)
  | (.errored, _, evs) => (evs ++ [.disconnect], .errored)
  | (.ok stu, rest, evs) =>
    (evs ++ (sessionAfterStudent st stu rest).1, (sessionAfterStudent st stu rest).2)

/-- Strict reading of the spec's words "denotes a positive integer":
the trimmed input is an optionally `+`-signed non-empty digit string
with positive value.  Used only to compare the spec's phrasing with
`parseInt`'s behaviour. -/
def denotesPositiveInteger (s : String) : Bool :=
  let cs := (jsTrim s).data
  let ds := match cs with
    | '+' :: t => t
    | t => t
  (¬ ds.isEmpty) && ds.all (fun c => c.isDigit) && digitsVal ds > 0

/-! ## Concrete fixtures -/

/-- A stored attempt record with one extra field. -/
def sampleAttempt : Attempt :=
  { isFinished := true, endDatetime := 1000, rest := [("score", "7")] }

/-- A stored exam descriptor. -/
def sampleEntry : ExamEntry :=
  { id := "e1", title := "Math" }

/-- A store with one student, one array-shaped exam list and one
attempt record under `"s1-e1"`. -/
def sampleStore : Store :=
  { logins := [("alice", { id := "s1" })]
  , examsH := [("s1", ExamData.plainArr [some sampleEntry])]
  , attempts := [("s1-e1", sampleAttempt)] }

/-- The same store except the exam data is the JSON object
`{"exams": [ ... ]}` — a non-array, non-empty object carrying the exam
array under its `exams` property. -/
def sampleStoreObjExams : Store :=
  { sampleStore with
      examsH := [("s1", ExamData.objWithExams (ExamsColl.arr [some sampleEntry]))] }

/-- The same store except the exam data is a plain JSON object keyed by
exam key, with no `exams` property. -/
def sampleStoreObjColl : Store :=
  { sampleStore with
      examsH := [("s1", ExamData.objNoExams [("k1", some sampleEntry)])] }

end IncreaseTime

namespace IncreaseTime

/-! ## Helper lemmas -/

/-- Writing a field and reading it back yields the written value. -/
theorem hGet_hSet {α : Type} (h : List (String × α)) (k : String) (v : α) :
    hGet (hSet h k v) k = some v := by
  induction h with
  | nil => simp [hGet, hSet]
  | cons p t ih =>
    by_cases hk : p.1 = k
    · simp [hGet, hSet, hk]
    · simp [hGet, hSet, hk, ih]

/-- Unfolding `increaseStudentExamTime` on a present record with a
valid student and no injected store failure. -/
theorem increase_found_eq (attempts : List (String × Attempt)) (sid eid : String)
    (r : Attempt) (n : Int) (hsid : sid ≠ "")
    (hfound : hGet attempts (attemptKey sid eid) = some r) :
    increaseStudentExamTime attempts eid (some ⟨sid⟩) n false false =
      (.success,
       hSet attempts (attemptKey sid eid)
         { isFinished := false, endDatetime := r.endDatetime + n * 60, rest := r.rest },
       [.readAttempt (attemptKey sid eid),
        .write (attemptKey sid eid)
          { isFinished := false, endDatetime := r.endDatetime + n * 60, rest := r.rest }]) := by
  simp [increaseStudentExamTime, fetchStudentExamAttempt, addStudentExamAttempt,
    hGetThrow, hSetThrow, hsid, hfound]

/-- Unfolding `increaseStudentExamTime` on an absent record. -/
theorem increase_missing_eq (attempts : List (String × Attempt)) (sid eid : String)
    (n : Int) (hsid : sid ≠ "")
    (hmiss : hGet attempts (attemptKey sid eid) = none) :
    increaseStudentExamTime attempts eid (some ⟨sid⟩) n false false =
      (.notFound, attempts, [.readAttempt (attemptKey sid eid)]) := by
  simp [increaseStudentExamTime, fetchStudentExamAttempt, hGetThrow, hsid, hmiss]

/-! ## C1 -/

/-- C1: for every attempt record stored under `"<studentId>-<examId>"`
and every positive minute count `n`, the extension sets `isFinished`
to `false`, increases the parsed `endDatetime` by exactly `n * 60`
seconds, and leaves every other field of the record unchanged (the
`rest` component is carried over verbatim). -/
theorem c1_extension_updates_record (attempts : List (String × Attempt))
    (sid eid : String) (r : Attempt) (n : Int) (hn : 0 < n) (hsid : sid ≠ "")
    (hfound : hGet attempts (attemptKey sid eid) = some r) :
    increaseStudentExamTime attempts eid (some ⟨sid⟩) n false false =
      (.success,
       hSet attempts (attemptKey sid eid)
         { isFinished := false, endDatetime := r.endDatetime + n * 60, rest := r.rest },
       [.readAttempt (attemptKey sid eid),
        .write (attemptKey sid eid)
          { isFinished := false, endDatetime := r.endDatetime + n * 60, rest := r.rest }]) :=
  increase_found_eq attempts sid eid r n hsid hfound

/-- Witness for C1 on the sample store with `n = 5`. -/
theorem c1_witness :
    increaseStudentExamTime [("s1-e1", sampleAttempt)] "e1" (some ⟨"s1"⟩) 5 false false =
      (.success,
       hSet [("s1-e1", sampleAttempt)] (attemptKey "s1" "e1")
         { isFinished := false, endDatetime := sampleAttempt.endDatetime + 5 * 60,
           rest := sampleAttempt.rest },
       [.readAttempt (attemptKey "s1" "e1"),
        .write (attemptKey "s1" "e1")
          { isFinished := false, endDatetime := sampleAttempt.endDatetime + 5 * 60,
            rest := sampleAttempt.rest }]) :=
  c1_extension_updates_record [("s1-e1", sampleAttempt)] "s1" "e1" sampleAttempt 5
    (by decide) (by decide) (by decide)

/-! ## C2 -/

/-- C2: when no attempt record is stored under
`"<studentId>-<examId>"`, the extension aborts with the not-found
outcome, performs zero store writes, and leaves the hash unchanged —
in particular it never creates a new attempt record. -/
theorem c2_missing_attempt_no_write (attempts : List (String × Attempt))
    (sid eid : String) (n : Int) (hsid : sid ≠ "")
    (hmiss : hGet attempts (attemptKey sid eid) = none) :
    increaseStudentExamTime attempts eid (some ⟨sid⟩) n false false =
      (.notFound, attempts, [.readAttempt (attemptKey sid eid)]) :=
  increase_missing_eq attempts sid eid n hsid hmiss

/-- Witness for C2: extending a nonexistent attempt `"s1-e9"`. -/
theorem c2_witness :
    increaseStudentExamTime [("s1-e1", sampleAttempt)] "e9" (some ⟨"s1"⟩) 5 false false =
      (.notFound, [("s1-e1", sampleAttempt)], [.readAttempt (attemptKey "s1" "e9")]) :=
  c2_missing_attempt_no_write [("s1-e1", sampleAttempt)] "s1" "e9" 5
    (by decide) (by decide)

/-! ## C3 -/

/-- C3: the extension is not idempotent — starting from a stored
record `r`, one run of `n` minutes leaves `endDatetime` at
`r.endDatetime + n * 60`, a second identical run leaves it at
`r.endDatetime + 2 * (n * 60)`, and for positive `n` the two differ. -/
theorem c3_two_runs_compose_additively (attempts : List (String × Attempt))
    (sid eid : String) (r : Attempt) (n : Int) (hn : 0 < n) (hsid : sid ≠ "")
    (hfound : hGet attempts (attemptKey sid eid) = some r) :
    hGet (increaseStudentExamTime attempts eid (some ⟨sid⟩) n false false).2.1
        (attemptKey sid eid) =
      some { isFinished := false, endDatetime := r.endDatetime + n * 60, rest := r.rest } ∧
    hGet (increaseStudentExamTime
        (increaseStudentExamTime attempts eid (some ⟨sid⟩) n false false).2.1
        eid (some ⟨sid⟩) n false false).2.1 (attemptKey sid eid) =
      some { isFinished := false, endDatetime := r.endDatetime + 2 * (n * 60),
             rest := r.rest } ∧
    r.endDatetime + n * 60 ≠ r.endDatetime + 2 * (n * 60) := by
  have h1 := increase_found_eq attempts sid eid r n hsid hfound
  have hget1 : hGet (increaseStudentExamTime attempts eid (some ⟨sid⟩) n false false).2.1
      (attemptKey sid eid) =
      some { isFinished := false, endDatetime := r.endDatetime + n * 60, rest := r.rest } := by
    rw [h1]
    exact hGet_hSet _ _ _
  have h2 := increase_found_eq
    (increaseStudentExamTime attempts eid (some ⟨sid⟩) n false false).2.1 sid eid
    { isFinished := false, endDatetime := r.endDatetime + n * 60, rest := r.rest }
    n hsid hget1
  refine ⟨hget1, ?_, ?_⟩
  · rw [h2]
    have := hGet_hSet (increaseStudentExamTime attempts eid (some ⟨sid⟩) n false false).2.1
      (attemptKey sid eid)
      (⟨false, r.endDatetime + n * 60 + n * 60, r.rest⟩ : Attempt)
    simpa [show r.endDatetime + n * 60 + n * 60 = r.endDatetime + 2 * (n * 60) by ring]
      using this
  · omega

/-- Witness for C3 on the sample store with `n = 5`. -/
theorem c3_witness :
    hGet (increaseStudentExamTime [("s1-e1", sampleAttempt)] "e1" (some ⟨"s1"⟩) 5
        false false).2.1 (attemptKey "s1" "e1") =
      some { isFinished := false, endDatetime := sampleAttempt.endDatetime + 5 * 60,
             rest := sampleAttempt.rest } ∧
    hGet (increaseStudentExamTime
        (increaseStudentExamTime [("s1-e1", sampleAttempt)] "e1" (some ⟨"s1"⟩) 5
          false false).2.1 "e1" (some ⟨"s1"⟩) 5 false false).2.1 (attemptKey "s1" "e1") =
      some { isFinished := false, endDatetime := sampleAttempt.endDatetime + 2 * (5 * 60),
             rest := sampleAttempt.rest } ∧
    sampleAttempt.endDatetime + 5 * 60 ≠ sampleAttempt.endDatetime + 2 * (5 * 60) :=
  c3_two_runs_compose_additively [("s1-e1", sampleAttempt)] "s1" "e1" sampleAttempt 5
    (by decide) (by decide) (by decide)

/-! ## C6 -/

/-- C6: on success the whole updated record is written back under the
same composite key, fully replacing the prior value — the resulting
hash is exactly an `hSet` of the complete updated record, and reading
the key afterwards returns that complete record. -/
theorem c6_full_record_persisted (attempts : List (String × Attempt))
    (sid eid : String) (r : Attempt) (n : Int) (hsid : sid ≠ "")
    (hfound : hGet attempts (attemptKey sid eid) = some r) :
    (increaseStudentExamTime attempts eid (some ⟨sid⟩) n false false).2.1 =
      hSet attempts (attemptKey sid eid)
        { isFinished := false, endDatetime := r.endDatetime + n * 60, rest := r.rest } ∧
    hGet (increaseStudentExamTime attempts eid (some ⟨sid⟩) n false false).2.1
        (attemptKey sid eid) =
      some { isFinished := false, endDatetime := r.endDatetime + n * 60,
             rest := r.rest } := by
  have h := increase_found_eq attempts sid eid r n hsid hfound
  constructor
  · rw [h]
  · rw [h]
    exact hGet_hSet _ _ _

/-- Witness for C6 on the sample store with `n = 5`. -/
theorem c6_witness :
    (increaseStudentExamTime [("s1-e1", sampleAttempt)] "e1" (some ⟨"s1"⟩) 5
        false false).2.1 =
      hSet [("s1-e1", sampleAttempt)] (attemptKey "s1" "e1")
        { isFinished := false, endDatetime := sampleAttempt.endDatetime + 5 * 60,
          rest := sampleAttempt.rest } ∧
    hGet (increaseStudentExamTime [("s1-e1", sampleAttempt)] "e1" (some ⟨"s1"⟩) 5
        false false).2.1 (attemptKey "s1" "e1") =
      some { isFinished := false, endDatetime := sampleAttempt.endDatetime + 5 * 60,
             rest := sampleAttempt.rest } :=
  c6_full_record_persisted [("s1-e1", sampleAttempt)] "s1" "e1" sampleAttempt 5
    (by decide) (by decide)

/-! ## C8 -/

/-- C8: an injected store failure during the extension's read or write
is logged and swallowed — the function still returns a value (no error
escapes), and the hash is left unchanged in both cases; a failed read
is treated as a missing record, so the operation aborts before
mutating anything. -/
theorem c8_store_failures_swallowed (attempts : List (String × Attempt))
    (sid eid : String) (r : Attempt) (n : Int) (hsid : sid ≠ "")
    (hfound : hGet attempts (attemptKey sid eid) = some r) :
    increaseStudentExamTime attempts eid (some ⟨sid⟩) n true false =
      (.notFound, attempts, [.readAttempt (attemptKey sid eid), .logError]) ∧
    increaseStudentExamTime attempts eid (some ⟨sid⟩) n false true =
      (.success, attempts, [.readAttempt (attemptKey sid eid), .logError]) := by
  constructor
  · simp [increaseStudentExamTime, fetchStudentExamAttempt, hGetThrow, hsid]
  · simp [increaseStudentExamTime, fetchStudentExamAttempt, addStudentExamAttempt,
      hGetThrow, hSetThrow, hsid, hfound]

/-- Witness for C8 on the sample store with `n = 5`. -/
theorem c8_witness :
    increaseStudentExamTime [("s1-e1", sampleAttempt)] "e1" (some ⟨"s1"⟩) 5 true false =
      (.notFound, [("s1-e1", sampleAttempt)],
       [.readAttempt (attemptKey "s1" "e1"), .logError]) ∧
    increaseStudentExamTime [("s1-e1", sampleAttempt)] "e1" (some ⟨"s1"⟩) 5 false true =
      (.success, [("s1-e1", sampleAttempt)],
       [.readAttempt (attemptKey "s1" "e1"), .logError]) :=
  c8_store_failures_swallowed [("s1-e1", sampleAttempt)] "s1" "e1" sampleAttempt 5
    (by decide) (by decide)

/-! ## C9 -/

/-- C9 counterexample: on the sample store the extension on an
existing attempt performs exactly one store read — not two — and one
store write. -/
theorem c9_counterexample_read_count :
    (increaseStudentExamTime [("s1-e1", sampleAttempt)] "e1" (some ⟨"s1"⟩) 5
        false false).2.2.countP isReadEv = 1 ∧
    ¬ (increaseStudentExamTime [("s1-e1", sampleAttempt)] "e1" (some ⟨"s1"⟩) 5
        false false).2.2.countP isReadEv = 2 ∧
    (increaseStudentExamTime [("s1-e1", sampleAttempt)] "e1" (some ⟨"s1"⟩) 5
        false false).2.2.countP isWriteEv = 1 := by
  decide

/-- C9 amended: every invocation of the extension on an existing
attempt performs exactly one store read and one store write. -/
theorem c9_one_read_one_write (attempts : List (String × Attempt))
    (sid eid : String) (r : Attempt) (n : Int) (hsid : sid ≠ "")
    (hfound : hGet attempts (attemptKey sid eid) = some r) :
    (increaseStudentExamTime attempts eid (some ⟨sid⟩) n false false).2.2.countP
        isReadEv = 1 ∧
    (increaseStudentExamTime attempts eid (some ⟨sid⟩) n false false).2.2.countP
        isWriteEv = 1 := by
  rw [increase_found_eq attempts sid eid r n hsid hfound]
  simp [List.countP_cons, isReadEv, isWriteEv]

/-- Witness for the amended C9 on the sample store. -/
theorem c9_witness :
    (increaseStudentExamTime [("s1-e1", sampleAttempt)] "e1" (some ⟨"s1"⟩) 5
        false false).2.2.countP isReadEv = 1 ∧
    (increaseStudentExamTime [("s1-e1", sampleAttempt)] "e1" (some ⟨"s1"⟩) 5
        false false).2.2.countP isWriteEv = 1 :=
  c9_one_read_one_write [("s1-e1", sampleAttempt)] "s1" "e1" sampleAttempt 5
    (by decide) (by decide)

/-! ## C4 -/

/-- C4 counterexample: `"3.5"` does not denote a positive integer, yet
the minutes loop accepts it immediately (as `parseInt` salvages `3`)
instead of re-prompting, and a session fed `"3.5"` at the minutes
prompt still reaches the extension step and writes. -/
theorem c4_counterexample_minutes :
    denotesPositiveInteger "3.5" = false ∧
    minutesLoop ["3.5"] = (.ok 3, []) ∧
    Ev.write "s1-e1" { isFinished := false, endDatetime := 1180, rest := [("score", "7")] }
      ∈ (session sampleStore ["alice", "1", "3.5"]).1 := by
  decide

/-- C4 amended: the minutes loop rejects and re-prompts exactly the
inputs whose `parseInt` is `NaN` or non-positive, and whenever it
completes, the minute count handed to the extension step is a positive
integer (namely the `parseInt` of the accepted input, which may differ
from the literal input, e.g. `"3.5"` yields `3`). -/
theorem c4_minutes_loop_amended :
    (∀ inp rest, isExitTok inp = false →
      (jsParseInt (jsTrim inp) = none ∨ ∃ v, jsParseInt (jsTrim inp) = some v ∧ v ≤ 0) →
      minutesLoop (inp :: rest) = minutesLoop rest) ∧
    (∀ inputs v rem, minutesLoop inputs = (.ok v, rem) → 0 < v) := by
  constructor
  · intro inp rest hx hbad
    rcases hbad with h | ⟨v, hv, hle⟩
    · simp [minutesLoop, hx, h]
    · simp [minutesLoop, hx, hv, hle]
  · intro inputs
    induction inputs with
    | nil => intro v rem h; simp [minutesLoop] at h
    | cons inp rest ih =>
      intro v rem h
      by_cases hx : isExitTok inp
      · simp [minutesLoop, hx] at h
      · rcases hp : jsParseInt (jsTrim inp) with _ | w
        · simp [minutesLoop, hx, hp] at h
          exact ih v rem h
        · by_cases hw : w ≤ 0
          · simp [minutesLoop, hx, hp, hw] at h
            exact ih v rem h
          · simp [minutesLoop, hx, hp, hw] at h
            omega

/-- Witness for the amended C4: `"0"` and `"abc"` are re-prompted, and
the accepted value `7` is positive. -/
theorem c4_witness :
    minutesLoop ["0", "7"] = minutesLoop ["7"] ∧
    minutesLoop ["abc", "7"] = minutesLoop ["7"] ∧
    0 < (3 : Int) := by
  refine ⟨?_, ?_, ?_⟩
  · exact c4_minutes_loop_amended.1 "0" ["7"] (by decide) (Or.inr ⟨0, by decide, by decide⟩)
  · exact c4_minutes_loop_amended.1 "abc" ["7"] (by decide) (Or.inl (by decide))
  · exact c4_minutes_loop_amended.2 ["3.5"] 3 [] (by decide)

/-! ## C7 -/

/-- Characterization of a successful array `find` with the
`({ id }) => id === eid` callback: the found entry carries `eid`. -/
theorem jsArrayFind_ok_some (items : List (Option ExamEntry)) (eid : String)
    (e : ExamEntry) (h : jsArrayFind items eid = .ok (some e)) : e.id = eid := by
  induction items with
  | nil => simp [jsArrayFind] at h
  | cons item t ih =>
    match item with
    | none => simp [jsArrayFind] at h
    | some e2 =>
      by_cases he : e2.id = eid
      · simp [jsArrayFind, he] at h
        rw [← h]
        exact he
      · simp [jsArrayFind, he] at h
        exact ih h

/-- A successful `collFind` also carries the requested id. -/
theorem collFind_ok_some (c : ExamsColl) (eid : String) (e : ExamEntry)
    (h : collFind c eid = .ok (some e)) : e.id = eid := by
  match c with
  | .arr items => exact jsArrayFind_ok_some items eid e h
  | .obj fields => simp [collFind] at h

/-- C7: an exam-selection input whose parsed number matches no listed
choice index is rejected and re-prompted (the loop continues on the
remaining answers), and whenever the selection loop completes, the
selected exam corresponds to a listed choice. -/
theorem c7_selection_only_listed :
    (∀ c choices inp rest, isExitTok inp = false →
      (jsParseInt (jsTrim inp)).bind (fun v => choices.find? fun ch => ch.index = v) = none →
      selLoop c choices (inp :: rest) = selLoop c choices rest) ∧
    (∀ c choices inputs e rem, selLoop c choices inputs = (.ok e, rem) →
      ∃ ch ∈ choices, ch.examId = e.id) := by
  constructor
  · intro c choices inp rest hx hnone
    simp [selLoop, hx, hnone]
  · intro c choices inputs
    induction inputs with
    | nil => intro e rem h; simp [selLoop] at h
    | cons inp rest ih =>
      intro e rem h
      by_cases hx : isExitTok inp
      · simp [selLoop, hx] at h
      · rcases hb : (jsParseInt (jsTrim inp)).bind
            (fun v => choices.find? fun ch => ch.index = v) with _ | ch
        · simp [selLoop, hx, hb] at h
          exact ih e rem h
        · have hmem : ch ∈ choices := by
            rcases hp : jsParseInt (jsTrim inp) with _ | v
            · rw [hp] at hb; simp at hb
            · rw [hp] at hb
              simp at hb
              exact List.mem_of_find?_eq_some hb
          rcases hf : collFind c ch.examId with u | _ | e2
          · simp [selLoop, hx, hb, hf] at h
          · simp [selLoop, hx, hb, hf] at h
            exact ih e rem h
          · simp [selLoop, hx, hb, hf] at h
            refine ⟨ch, hmem, ?_⟩
            rw [← h.1]
            exact (collFind_ok_some c ch.examId e2 hf).symm

/-- Witness for C7: the out-of-range answer `"9"` is re-prompted, and
the completed selection on the sample collection is the listed choice. -/
theorem c7_witness :
    selLoop (.arr [some sampleEntry]) [{ index := 1, examId := "e1", title := "Math" }]
        ["9", "1"] =
      selLoop (.arr [some sampleEntry]) [{ index := 1, examId := "e1", title := "Math" }]
        ["1"] ∧
    ∃ ch ∈ [({ index := 1, examId := "e1", title := "Math" } : Choice)],
      ch.examId = sampleEntry.id := by
  constructor
  · exact c7_selection_only_listed.1 (.arr [some sampleEntry])
      [{ index := 1, examId := "e1", title := "Math" }] "9" ["1"] (by decide) (by decide)
  · exact c7_selection_only_listed.2 (.arr [some sampleEntry])
      [{ index := 1, examId := "e1", title := "Math" }] ["1"] sampleEntry [] (by decide)

/-! ## C5 -/

/-- A cancelled `sessionAfterStudent` run ends its trace with the
disconnect followed by the successful exit, with nothing after. -/
theorem sessionAfterStudent_cancelled (st : Store) (stu : Student)
    (inputs : List String) (tr : List Ev) (o : Outcome)
    (h : sessionAfterStudent st stu inputs = (tr, o)) (ho : o = .cancelled) :
    ∃ pre, tr = pre ++ [Ev.disconnect, Ev.exitZero] := by
  subst ho
  unfold sessionAfterStudent at h
  split at h
  · injection h with h1 h2
    simp at h2
  · split at h
    · injection h with h1 h2
      simp at h2
    · split at h
      · injection h with h1 h2
        exact ⟨[Ev.readExams stu.id], h1.symm⟩
      · injection h with h1 h2
        simp at h2
      · injection h with h1 h2
        simp at h2
      · split at h
        · injection h with h1 h2
          exact ⟨[Ev.readExams stu.id], h1.symm⟩
        · injection h with h1 h2
          simp at h2
        · injection h with h1 h2
          simp at h2
        · injection h with h1 h2
          simp at h2

/-- C5: entering the cancellation token at the identifier prompt, the
exam-selection prompt or the minutes prompt makes the loop return the
cancelled result at once (no pending work), and every cancelled
session's event trace ends with the connection release followed by
`process.exit(0)` — in particular no store write happens at or after
the token. -/
theorem c5_cancellation_clean_exit :
    (∀ logins inp rest, isExitTok inp = true →
      emailLoop logins (inp :: rest) = (.cancelled, rest, [])) ∧
    (∀ c choices inp rest, isExitTok inp = true →
      selLoop c choices (inp :: rest) = (.cancelled, rest)) ∧
    (∀ inp rest, isExitTok inp = true →
      minutesLoop (inp :: rest) = (.cancelled, rest)) ∧
    (∀ st inputs tr o, session st inputs = (tr, o) → o = .cancelled →
      ∃ pre, tr = pre ++ [Ev.disconnect, Ev.exitZero]) := by
  refine ⟨?_, ?_, ?_, ?_⟩
  · intro logins inp rest hx
    simp [emailLoop, hx]
  · intro c choices inp rest hx
    simp [selLoop, hx]
  · intro inp rest hx
    simp [minutesLoop, hx]
  · intro st inputs tr o h ho
    subst ho
    unfold session at h
    split at h
    · injection h with h1 h2
      exact ⟨_, h1.symm⟩
    · injection h with h1 h2
      simp at h2
    · injection h with h1 h2
      simp at h2
    · rename_i stu rest evs heq
      rcases hs : sessionAfterStudent st stu rest with ⟨tr2, o2⟩
      rw [hs] at h
      injection h with h1 h2
      obtain ⟨pre, hpre⟩ :=
        sessionAfterStudent_cancelled st stu rest tr2 o2 hs h2
      refine ⟨evs ++ pre, ?_⟩
      rw [← h1, hpre, List.append_assoc]

/-- Witness for C5: the token cancels each prompt loop, and the
cancelled sample session's trace ends with disconnect and exit 0. -/
theorem c5_witness :
    emailLoop [] ["exit"] = (.cancelled, [], []) ∧
    selLoop (.arr [some sampleEntry]) [] ["exit"] = (.cancelled, []) ∧
    minutesLoop ["exit"] = (.cancelled, []) ∧
    ∃ pre, [Ev.disconnect, Ev.exitZero] = pre ++ [Ev.disconnect, Ev.exitZero] := by
  refine ⟨?_, ?_, ?_, ?_⟩
  · exact c5_cancellation_clean_exit.1 [] "exit" [] (by decide)
  · exact c5_cancellation_clean_exit.2.1 (.arr [some sampleEntry]) [] "exit" [] (by decide)
  · exact c5_cancellation_clean_exit.2.2.1 "exit" [] (by decide)
  · exact c5_cancellation_clean_exit.2.2.2 sampleStore ["exit"]
      [Ev.disconnect, Ev.exitZero] .cancelled (by decide) rfl

/-! ## C10 -/

/-- The selection loop over an object-shaped (non-array) collection
can never complete with a selected exam. -/
theorem selLoop_obj_ne_ok (fields : List (String × Option ExamEntry))
    (choices : List Choice) (inputs : List String) :
    ∀ e rem, selLoop (.obj fields) choices inputs ≠ (.ok e, rem) := by
  induction inputs with
  | nil => intro e rem h; simp [selLoop] at h
  | cons inp rest ih =>
    intro e rem h
    by_cases hx : isExitTok inp
    · simp [selLoop, hx] at h
    · rcases hb : (jsParseInt (jsTrim inp)).bind
          (fun v => choices.find? fun ch => ch.index = v) with _ | ch
      · simp [selLoop, hx, hb] at h
        exact ih e rem h
      · simp [selLoop, hx, hb, collFind] at h

/-- C10 counterexample: the stored exam data of `sampleStoreObjExams`
is the non-array, non-empty JSON object `{"exams": [ ... ]}` — yet
selecting the listed exam number `1` proceeds through the extension
(the write happens and the session finishes normally) rather than
aborting with an error. -/
theorem c10_counterexample_object_with_exams_array :
    hGet sampleStoreObjExams.examsH "s1" =
      some (ExamData.objWithExams (ExamsColl.arr [some sampleEntry])) ∧
    (session sampleStoreObjExams ["alice", "1", "5"]).2 = .done ∧
    ¬ (session sampleStoreObjExams ["alice", "1", "5"]).2 = .errored ∧
    Ev.write "s1-e1" { isFinished := false, endDatetime := 1300, rest := [("score", "7")] }
      ∈ (session sampleStoreObjExams ["alice", "1", "5"]).1 := by
  decide

/-- C10 amended: when the exam collection left after the
`exams`-property fallback is a non-array object, selecting any listed
exam number makes the selection loop abort with the `TypeError` of the
array-only `find`, and — whatever the remaining inputs — the session
after the student never reaches the extension step: its trace contains
no attempt read and no store write. -/
theorem c10_object_exam_data_errors :
    (∀ fields choices inp rest ch, isExitTok inp = false →
      (jsParseInt (jsTrim inp)).bind
        (fun v => choices.find? fun c2 => c2.index = v) = some ch →
      selLoop (.obj fields) choices (inp :: rest) = (.errored, rest)) ∧
    (∀ st stu d fields inputs tr o, hGet st.examsH stu.id = some d →
      collOf d = .obj fields → sessionAfterStudent st stu inputs = (tr, o) →
      (∀ k v, Ev.write k v ∉ tr) ∧ (∀ k, Ev.readAttempt k ∉ tr)) := by
  constructor
  · intro fields choices inp rest ch hx hb
    simp [selLoop, hx, hb, collFind]
  · intro st stu d fields inputs tr o hd hobj h
    unfold sessionAfterStudent at h
    split at h
    · rename_i heq
      rw [hd] at heq
      cases heq
    · rename_i d2 heq
      rw [hd] at heq
      injection heq with hd2
      subst hd2
      rw [hobj] at h
      split at h
      · injection h with h1 h2
        subst h1
        constructor <;> intro k <;> simp
      · split at h
        · injection h with h1 h2
          subst h1
          constructor <;> intro k <;> simp
        · injection h with h1 h2
          subst h1
          constructor <;> intro k <;> simp
        · injection h with h1 h2
          subst h1
          constructor <;> intro k <;> simp
        · rename_i e rest2 heq2
          exact absurd heq2
            (selLoop_obj_ne_ok fields (examChoices (.obj fields)) inputs e rest2)

/-- Witness for the amended C10: on the object-shaped sample store the
matched selection errors, and the session after the student performs
no attempt read and no write. -/
theorem c10_witness :
    selLoop (.obj [("k1", some sampleEntry)])
        (examChoices (.obj [("k1", some sampleEntry)])) ["1"] = (.errored, []) ∧
    Ev.write "s1-e1" sampleAttempt ∉
      [Ev.readExams "s1", Ev.disconnect] ∧
    Ev.readAttempt "s1-e1" ∉
      [Ev.readExams "s1", Ev.disconnect] := by
  refine ⟨?_, ?_, ?_⟩
  · exact c10_object_exam_data_errors.1 [("k1", some sampleEntry)]
      (examChoices (.obj [("k1", some sampleEntry)])) "1" []
      { index := 1, examId := "e1", title := "Math" } (by decide) (by decide)
  · exact (c10_object_exam_data_errors.2 sampleStoreObjColl ⟨"s1"⟩
      (ExamData.objNoExams [("k1", some sampleEntry)]) [("k1", some sampleEntry)]
      ["1", "5"] [Ev.readExams "s1", Ev.disconnect] .errored
      (by decide) (by decide) (by decide)).1 "s1-e1" sampleAttempt
  · exact (c10_object_exam_data_errors.2 sampleStoreObjColl ⟨"s1"⟩
      (ExamData.objNoExams [("k1", some sampleEntry)]) [("k1", some sampleEntry)]
      ["1", "5"] [Ev.readExams "s1", Ev.disconnect] .errored
      (by decide) (by decide) (by decide)).2 "s1-e1"

end IncreaseTime
